import Mathlib

/-!
Verification of the Dana PO Wizard data-access layer (src/api.js).

The embedding models the local-fallback backend of api.js: the three
localStorage collections (users, records, notifications) together with the
module-level current user and the auth listener list form one explicit state,
and each API function becomes a state-passing Lean function.  `throw` becomes
an `Except.error` carrying the thrown message; since every throwing path in
the local fallback throws before any write, an error leaves the state
unchanged.  Nondeterministic inputs of the source (uuidv4 results, Date
timestamps) are passed in as explicit parameters; timestamps are naturals
ordered as the ISO strings of the source are ordered.  A JS `undefined`
string field is modelled as the empty string, and JSON encode/decode through
localStorage is modelled as the identity on the stored values.  Listener
invocation is modelled observably: firing the listeners appends one event per
registered listener to an event log.
-/

/-- JS `a || b` on strings, with the empty string as the only falsy value. -/
def jsOrElse (a b : String) : String :=
  if a = "" then b else a

/-- In-place mutation of the element `Array.prototype.find` returned: replace
the first element satisfying `q` by its image under `f`, leave the rest. -/
def replaceFirst (q : α → Bool) (f : α → α) : List α → List α
  | [] => []
  | x :: xs => if q x then f x :: xs else x :: replaceFirst q f xs

/-- Helper for `dedupFirst`, carrying the elements already emitted. -/
def dedupFirstAux (seen : List String) : List String → List String
  | [] => []
  | x :: xs =>
      if seen.contains x then dedupFirstAux seen xs
      else x :: dedupFirstAux (x :: seen) xs

/-- JS `Array.from(new Set(l))`: keep the first occurrence of each element,
in order. -/
def dedupFirst (l : List String) : List String :=
  dedupFirstAux [] l

/-- A user of the local user set (localStorage key `po_users`). -/
structure User where
  id : String
  email : String
  password : String
  displayName : String
deriving DecidableEq, Repr

/-- The fields of the `meta` object that savePoRecord reads, plus an opaque
remainder standing for every other field of the payload. -/
structure Meta where
  subject : String
  poNumber : String
  amount : String
  currencyFa : String
  rest : String
deriving DecidableEq, Repr

/-- The `meta_json` column: the saved payload `{ meta, items, attachments,
clauses }`, the last three opaque to the core. -/
structure MetaJson where
  meta : Meta
  items : String
  attachments : String
  clauses : String
deriving DecidableEq, Repr

/-- A PO record (localStorage key `po_records`). -/
structure PoRecord where
  id : String
  owner_uid : String
  created_at : Nat
  updated_at : Nat
  status : String
  title : String
  po_number : String
  summary : String
  meta_json : MetaJson
  assignees : List String
  fileBase64 : Option String
deriving DecidableEq, Repr

/-- A notification (localStorage key `po_notifications`).  The payload is
`{}` (`none`) for review requests and `{ status }` (`some status`) for review
feedback. -/
structure Notif where
  id : String
  to_uid : String
  from_uid : String
  ntype : String
  po_id : String
  created_at : Nat
  read : Bool
  payload : Option String
deriving DecidableEq, Repr

/-- The whole observable state of the local fallback: the three localStorage
collections, the module-level `currentUser` (which also stands for the
session marker `po_current_uid`), the registered auth listeners (by tag) and
the log of listener invocations (listener tag, identity it received). -/
structure LocalState where
  users : List User
  records : List PoRecord
  notifs : List Notif
  currentUser : Option User
  listeners : List Nat
  events : List (Nat × Option String)
deriving DecidableEq, Repr

/-- `authListeners.forEach(fn => fn(currentUser))`: every registered listener
receives the identity `uid`. -/
def fireListeners (s : LocalState) (uid : Option String) : LocalState :=
  { s with events := s.events ++ s.listeners.map (fun l => (l, uid)) }

/-- The in-place record mutation of updateRecordStatus:
`rec.status = status; rec.updated_at = ...`. -/
def applyStatus (status : String) (t : Nat) (r : PoRecord) : PoRecord :=
  { r with status := status, updated_at := t }

/-- The in-place record mutation of addAssignee: dedup-append the assignee
id, force status in_review, refresh the timestamp. -/
def pushAssignee (aid : String) (t : Nat) (r : PoRecord) : PoRecord :=
  { r with assignees := dedupFirst (r.assignees ++ [aid]),
           status := "in_review", updated_at := t }

/-- The in-place notification mutation of markNotificationRead:
`notif.read = true`. -/
def markRead (n : Notif) : Notif :=
  { n with read := true }

/-- The in-place user mutation of the guest branch of signIn:
`guestUser.password = ...`. -/
def normalizeGuestPassword (u : User) : User :=
  { u with password := "guest" }

/-- Message thrown by savePoRecord without a current user. -/
def mustSignInMsg : String := "باید وارد شوید."

/-- Message thrown by updateRecordStatus / addAssignee / downloadFile without
a current user. -/
def loginRequiredMsg : String := "ورود لازم است"

/-- signUp error for an already-registered email. -/
def emailTakenMsg : String := "آدرس ایمیل قبلاً استفاده شده است."

/-- signIn error for a failed local lookup. -/
def signInFailMsg : String := "کاربر یافت نشد یا رمز نادرست است."

/-- addAssignee error for an email that resolves to no user. -/
def assigneeNotFoundMsg : String := "کاربر یافت نشد"

/-- addAssignee error for an unknown record id. -/
def recordNotFoundMsg : String := "رکورد یافت نشد"

/-- `signUp` in the local fallback (api.js lines 80-97).  `freshId` is the
uuidv4 the source draws. -/
def signUp (s : LocalState) (freshId email password displayName : String) :
    Except String User × LocalState :=
  if s.users.any (fun u => u.email == email) then
    (.error emailTakenMsg, s)
  else
    let user : User :=
      { id := freshId, email := email, password := password,
        displayName := jsOrElse displayName email }
    let s' := fireListeners
      { s with users := s.users ++ [user], currentUser := some user }
      (some user.id)
    (.ok user, s')

/-- `signIn` (api.js lines 100-139).  The guest special case runs before the
backend dispatch and uses the local user set; when `supaActive` is true the
non-guest path delegates to the remote service, kept abstract as `remote`;
otherwise the local lookup runs. -/
def signIn (remote : LocalState → String → String → Except String User × LocalState)
    (supaActive : Bool) (s : LocalState) (freshId email password : String) :
    Except String User × LocalState :=
  if email == "guest" && password == "guest" then
    match s.users.find? (fun u => u.email == "guest") with
    | none =>
        let g : User :=
          { id := freshId, email := "guest", password := "guest",
            displayName := "Guest" }
        let s' := fireListeners
          { s with users := s.users ++ [g], currentUser := some g }
          (some g.id)
        (.ok g, s')
    | some gu =>
        let gu' : User := normalizeGuestPassword gu
        let s' := fireListeners
          { s with
              users := replaceFirst (fun u => u.email == "guest")
                normalizeGuestPassword s.users,
              currentUser := some gu' }
          (some gu'.id)
        (.ok gu', s')
  else if supaActive then
    remote s email password
  else
    match s.users.find? (fun u => u.email == email && u.password == password) with
    | none => (.error signInFailMsg, s)
    | some u =>
        (.ok u, fireListeners { s with currentUser := some u } (some u.id))

/-- The record object savePoRecord builds before persisting it. -/
def mkRecord (u : User) (rid : String) (t : Nat) (meta : Meta)
    (items attachments clauses : String) (fileBlob : Option String) :
    PoRecord :=
  { id := rid
    owner_uid := jsOrElse u.id ""
    created_at := t
    updated_at := t
    status := "pending"
    title := jsOrElse meta.subject "PO"
    po_number := meta.poNumber
    summary := meta.subject ++ " - " ++ meta.amount ++ " " ++ meta.currencyFa
    meta_json :=
      { meta := meta, items := items, attachments := attachments,
        clauses := clauses }
    assignees := []
    fileBase64 := fileBlob }

/-- `savePoRecord` in the local fallback (api.js lines 165-207).  `rid` is
the uuidv4 drawn for the record id, `t` the Date timestamp; the base64
encoding of the file blob is modelled as the identity. -/
def savePoRecord (s : LocalState) (rid : String) (t : Nat) (meta : Meta)
    (items attachments clauses : String) (fileBlob : Option String) :
    Except String PoRecord × LocalState :=
  match s.currentUser with
  | none => (.error mustSignInMsg, s)
  | some u =>
      let record : PoRecord := mkRecord u rid t meta items attachments clauses fileBlob
      (.ok record, { s with records := s.records ++ [record] })

/-- `fetchMyRecords` in the local fallback (api.js lines 210-219): without a
current user it resolves to the empty list (it does not throw); otherwise it
filters by owner and sorts most-recently-updated first. -/
def fetchMyRecords (s : LocalState) : Except String (List PoRecord) :=
  match s.currentUser with
  | none => .ok []
  | some u =>
      .ok ((s.records.filter (fun r => r.owner_uid == u.id)).mergeSort
        (fun a b => decide (b.updated_at ≤ a.updated_at)))

/-- `fetchAssignedRecords` in the local fallback (api.js lines 222-231):
records whose assignee set contains the current user and whose owner is
someone else; empty list without a current user.  Unlike the remote branch,
the local branch returns the filter unsorted (api.js line 230 has no
ordering step). -/
def fetchAssignedRecords (s : LocalState) : Except String (List PoRecord) :=
  match s.currentUser with
  | none => .ok []
  | some u =>
      .ok (s.records.filter
        (fun r => r.assignees.contains u.id && r.owner_uid != u.id))

/-- `updateRecordStatus` in the local fallback (api.js lines 234-265).  `nid`
is the uuidv4 drawn for the notification id, `t` the Date timestamp.  A
missing record returns `none` without touching the state; otherwise the
status and timestamp are set with no transition validation and a
review_feedback notification goes to a truthy owner distinct from the
caller. -/
def updateRecordStatus (s : LocalState) (nid : String) (t : Nat)
    (id status : String) : Except String (Option PoRecord) × LocalState :=
  match s.currentUser with
  | none => (.error loginRequiredMsg, s)
  | some u =>
      match s.records.find? (fun r => r.id == id) with
      | none => (.ok none, s)
      | some rec =>
          let rec' : PoRecord := applyStatus status t rec
          let records' := replaceFirst (fun r => r.id == id)
            (applyStatus status t) s.records
          if rec.owner_uid != "" && rec.owner_uid != u.id then
            let n : Notif :=
              { id := nid, to_uid := rec.owner_uid, from_uid := u.id,
                ntype := "review_feedback", po_id := id, created_at := t,
                read := false, payload := some status }
            (.ok (some rec'), { s with records := records', notifs := s.notifs ++ [n] })
          else
            (.ok (some rec'), { s with records := records' })

/-- `addAssignee` in the local fallback (api.js lines 268-301).  `nid` is the
uuidv4 drawn for the notification id, `t` the Date timestamp.  Resolves the
email against the user set, dedup-appends the resolved id to the assignee
set, forces status in_review, and appends one review_request notification to
the assignee. -/
def addAssignee (s : LocalState) (nid : String) (t : Nat)
    (recordId email : String) : Except String Unit × LocalState :=
  match s.currentUser with
  | none => (.error loginRequiredMsg, s)
  | some u =>
      match s.users.find? (fun us => us.email == email) with
      | none => (.error assigneeNotFoundMsg, s)
      | some assignee =>
          match s.records.find? (fun r => r.id == recordId) with
          | none => (.error recordNotFoundMsg, s)
          | some _ =>
              let records' := replaceFirst (fun r => r.id == recordId)
                (pushAssignee assignee.id t) s.records
              let n : Notif :=
                { id := nid, to_uid := assignee.id, from_uid := u.id,
                  ntype := "review_request", po_id := recordId,
                  created_at := t, read := false, payload := none }
              (.ok (), { s with records := records', notifs := s.notifs ++ [n] })

/-- `markNotificationRead` in the local fallback (api.js lines 316-326):
silently returns without a current user; otherwise flips the read flag of
the first notification carrying the id, with no check of its addressee, and
is a no-op when no notification carries the id. -/
def markNotificationRead (s : LocalState) (id : String) : LocalState :=
  match s.currentUser with
  | none => s
  | some _ =>
      { s with
          notifs := replaceFirst (fun n => n.id == id) markRead s.notifs }

/-- One Record Store call of a trace.  The actor stands for whichever user is
signed in when the call runs; uuidv4 results and timestamps ride along as
parameters, matching the operation definitions. -/
inductive ApiCall where
  | save (actor : User) (rid : String) (t : Nat) (meta : Meta)
      (items attachments clauses : String) (fileBlob : Option String)
  | assign (actor : User) (nid : String) (t : Nat) (recordId email : String)
  | update (actor : User) (nid : String) (t : Nat) (id status : String)
deriving DecidableEq, Repr

/-- Run one call with its actor signed in; a thrown error leaves the stores
untouched. -/
def applyAction (s : LocalState) : ApiCall → LocalState
  | .save actor rid t meta items attachments clauses fileBlob =>
      (savePoRecord { s with currentUser := some actor } rid t meta items
        attachments clauses fileBlob).2
  | .assign actor nid t recordId email =>
      (addAssignee { s with currentUser := some actor } nid t recordId email).2
  | .update actor nid t id status =>
      (updateRecordStatus { s with currentUser := some actor } nid t id status).2

/-- Run a whole trace of Record Store calls. -/
def runActions (s : LocalState) (acts : List ApiCall) : LocalState :=
  acts.foldl applyAction s

/-- First invariant of the spec on one state: no record lists its owner among
its assignees. -/
def ownerNotAssignee (s : LocalState) : Bool :=
  s.records.all (fun r => decide (r.owner_uid ∉ r.assignees))

/-- Second invariant of the spec on one state: a record with an empty
assignee set has status pending. -/
def emptyOnlyPending (s : LocalState) : Bool :=
  s.records.all (fun r => decide (r.assignees = [] → r.status = "pending"))

/-- Guard of an assign step: the resolved assignee is not the owner of the
resolved record. -/
def assignGuard (s : LocalState) (recordId email : String) : Bool :=
  match s.users.find? (fun us => us.email == email),
        s.records.find? (fun r => r.id == recordId) with
  | some a, some r => a.id != r.owner_uid
  | _, _ => true

/-- Guard of an update step: a record whose assignee set is empty is only
ever set back to pending. -/
def updateGuard (s : LocalState) (id status : String) : Bool :=
  match s.records.find? (fun r => r.id == id) with
  | some r => !r.assignees.isEmpty || status == "pending"
  | none => true

/-- Guard of one step of a trace. -/
def actionGuard (s : LocalState) : ApiCall → Bool
  | .save _ _ _ _ _ _ _ _ => true
  | .assign _ _ _ recordId email => assignGuard s recordId email
  | .update _ _ _ id status => updateGuard s id status

/-- A trace is guarded when every step's guard holds in the state the step
runs from. -/
def guardedTrace : LocalState → List ApiCall → Bool
  | _, [] => true
  | s, a :: acts => actionGuard s a && guardedTrace (applyAction s a) acts


/-- Sample user: Alice. -/
def uAlice : User :=
  { id := "uid-alice", email := "alice@example.com", password := "pw-a",
    displayName := "Alice" }

/-- Sample user: Bob. -/
def uBob : User :=
  { id := "uid-bob", email := "bob@example.com", password := "pw-b",
    displayName := "Bob" }

/-- Sample metadata payload. -/
def metaSample : Meta :=
  { subject := "Pumps", poNumber := "PO-7", amount := "1200",
    currencyFa := "rial", rest := "other-fields" }

/-- Sample record owned by Alice. -/
def recAlice : PoRecord :=
  { id := "r1", owner_uid := "uid-alice", created_at := 0, updated_at := 0,
    status := "pending", title := "Pumps", po_number := "PO-7",
    summary := "Pumps - 1200 rial",
    meta_json :=
      { meta := metaSample, items := "it", attachments := "at", clauses := "cl" },
    assignees := [], fileBase64 := none }

/-- Sample record owned by Bob. -/
def recBob : PoRecord :=
  { recAlice with id := "r2", owner_uid := "uid-bob" }

/-- Sample notification addressed to Bob. -/
def notifToBob : Notif :=
  { id := "n1", to_uid := "uid-bob", from_uid := "uid-alice",
    ntype := "review_request", po_id := "r1", created_at := 0, read := false,
    payload := none }

/-- Base sample state: Alice signed in, Alice and Bob registered, two
listeners, empty stores. -/
def sBase : LocalState :=
  { users := [uAlice, uBob], records := [], notifs := [],
    currentUser := some uAlice, listeners := [0, 1], events := [] }

/-- Sample state with a record present but nobody signed in. -/
def sNoUser : LocalState :=
  { sBase with currentUser := none, records := [recAlice] }

/-- Sample state: Alice signed in, one notification addressed to Bob. -/
def sAliceBobNotif : LocalState :=
  { sBase with notifs := [notifToBob] }

/-- Sample state: Alice signed in, one record owned by Bob. -/
def sAliceRecBob : LocalState :=
  { sBase with records := [recBob] }

/-- Sample state: Alice signed in, one record owned by Alice. -/
def sAliceRecAlice : LocalState :=
  { sBase with records := [recAlice] }

/-- Stub remote backend used to instantiate the abstract remote parameter of
signIn in concrete witnesses. -/
def remoteStub : LocalState → String → String → Except String User × LocalState :=
  fun s _ _ => (.error "remote unavailable", s)

/-- Trace in which the owner assigns herself as a reviewer. -/
def selfAssignTrace : List ApiCall :=
  [ .save uAlice "r1" 0 metaSample "it" "at" "cl" none,
    .assign uAlice "n1" 1 "r1" "alice@example.com" ]

/-- Trace in which a record with no assignees leaves pending. -/
def emptyApproveTrace : List ApiCall :=
  [ .save uAlice "r1" 0 metaSample "it" "at" "cl" none,
    .update uAlice "n1" 1 "r1" "approved" ]

/-- Guarded trace: Alice saves, assigns Bob, Bob requests changes. -/
def reviewTrace : List ApiCall :=
  [ .save uAlice "r1" 0 metaSample "it" "at" "cl" none,
    .assign uAlice "n1" 1 "r1" "bob@example.com",
    .update uBob "n2" 2 "r1" "changes_requested" ]

theorem replaceFirst_of_find?_none {q : α → Bool} {f : α → α} {l : List α}
    (h : l.find? q = none) : replaceFirst q f l = l := by
  induction l with
  | nil => rfl
  | cons x xs ih =>
      rw [List.find?_cons] at h
      by_cases hx : q x = true
      · simp [hx] at h
      · simp only [hx] at h
        simp only [replaceFirst, if_neg hx]
        rw [ih h]

theorem dedupFirstAux_cons_mem {seen xs : List String} {x : String}
    (hx : x ∈ seen) :
    dedupFirstAux seen (x :: xs) = dedupFirstAux seen xs := by
  simp [dedupFirstAux, hx]

theorem dedupFirstAux_cons_not_mem {seen xs : List String} {x : String}
    (hx : x ∉ seen) :
    dedupFirstAux seen (x :: xs) = x :: dedupFirstAux (x :: seen) xs := by
  simp [dedupFirstAux, hx]

theorem mem_dedupFirstAux {a : String} {seen l : List String} :
    a ∈ dedupFirstAux seen l ↔ a ∈ l ∧ a ∉ seen := by
  induction l generalizing seen with
  | nil => simp [dedupFirstAux]
  | cons x xs ih =>
      by_cases hx : x ∈ seen
      · rw [dedupFirstAux_cons_mem hx, ih, List.mem_cons]
        constructor
        · rintro ⟨hm, hs⟩; exact ⟨Or.inr hm, hs⟩
        · rintro ⟨rfl | hm, hs⟩
          · exact absurd hx hs
          · exact ⟨hm, hs⟩
      · rw [dedupFirstAux_cons_not_mem hx, List.mem_cons, List.mem_cons, ih]
        constructor
        · rintro (rfl | ⟨hm, hs⟩)
          · exact ⟨Or.inl rfl, hx⟩
          · refine ⟨Or.inr hm, fun hc => hs (List.mem_cons_of_mem _ hc)⟩
        · rintro ⟨hax, hs⟩
          by_cases ha : a = x
          · exact Or.inl ha
          · rcases hax with rfl | hm
            · exact absurd rfl ha
            · refine Or.inr ⟨hm, fun hc => ?_⟩
              rcases List.mem_cons.mp hc with rfl | hc
              · exact ha rfl
              · exact hs hc

theorem nodup_dedupFirstAux {seen l : List String} :
    (dedupFirstAux seen l).Nodup := by
  induction l generalizing seen with
  | nil => simp [dedupFirstAux]
  | cons x xs ih =>
      by_cases hx : x ∈ seen
      · rw [dedupFirstAux_cons_mem hx]; exact ih
      · rw [dedupFirstAux_cons_not_mem hx]
        refine List.nodup_cons.mpr ⟨fun hc => ?_, ih⟩
        exact (mem_dedupFirstAux.mp hc).2 (List.mem_cons_self _ _)

theorem dedupFirstAux_eq_self {seen l : List String} (hn : l.Nodup)
    (hs : ∀ a ∈ l, a ∉ seen) : dedupFirstAux seen l = l := by
  induction l generalizing seen with
  | nil => rfl
  | cons x xs ih =>
      rw [dedupFirstAux_cons_not_mem (hs x (List.mem_cons_self _ _))]
      rw [ih (List.nodup_cons.mp hn).2]
      intro a ha hc
      rcases List.mem_cons.mp hc with rfl | hc
      · exact (List.nodup_cons.mp hn).1 ha
      · exact hs a (List.mem_cons_of_mem _ ha) hc

theorem dedupFirstAux_append_singleton {a : String} {seen l : List String}
    (h : a ∈ seen ∨ a ∈ dedupFirstAux seen l) :
    dedupFirstAux seen (l ++ [a]) = dedupFirstAux seen l := by
  induction l generalizing seen with
  | nil =>
      rcases h with h | h
      · simp only [List.nil_append]
        rw [dedupFirstAux_cons_mem h]
      · simp [dedupFirstAux] at h
  | cons x xs ih =>
      by_cases hx : x ∈ seen
      · rw [dedupFirstAux_cons_mem hx] at h
        rw [List.cons_append, dedupFirstAux_cons_mem hx,
          dedupFirstAux_cons_mem hx]
        exact ih h
      · rw [dedupFirstAux_cons_not_mem hx] at h
        rw [List.cons_append, dedupFirstAux_cons_not_mem hx,
          dedupFirstAux_cons_not_mem hx]
        congr 1
        apply ih
        rcases h with h | h
        · exact Or.inl (List.mem_cons_of_mem _ h)
        · rcases List.mem_cons.mp h with rfl | h
          · exact Or.inl (List.mem_cons_self _ _)
          · exact Or.inr h

theorem mem_dedupFirst {a : String} {l : List String} :
    a ∈ dedupFirst l ↔ a ∈ l := by
  simp [dedupFirst, mem_dedupFirstAux]

theorem nodup_dedupFirst {l : List String} : (dedupFirst l).Nodup :=
  nodup_dedupFirstAux

theorem dedupFirst_append_singleton_of_mem {a : String} {l : List String}
    (h : a ∈ dedupFirst l) : dedupFirst (l ++ [a]) = dedupFirst l :=
  dedupFirstAux_append_singleton (Or.inr h)

theorem dedupFirst_of_nodup {l : List String} (h : l.Nodup) :
    dedupFirst l = l :=
  dedupFirstAux_eq_self h (by simp)

theorem count_dedupFirst_append_singleton (a : String) (l : List String) :
    (dedupFirst (l ++ [a])).count a = 1 :=
  List.count_eq_one_of_mem nodup_dedupFirst
    (mem_dedupFirst.mpr (by simp))

theorem find?_replaceFirst (q : α → Bool) (f : α → α) (l : List α)
    (hf : ∀ x, q (f x) = q x) :
    (replaceFirst q f l).find? q = (l.find? q).map f := by
  induction l with
  | nil => rfl
  | cons x xs ih =>
      by_cases hx : q x = true
      · simp [replaceFirst, hx, List.find?_cons, hf]
      · simp only [replaceFirst, if_neg hx]
        rw [List.find?_cons, List.find?_cons]
        simp only [hx, ih]

theorem forall_mem_replaceFirst {q : α → Bool} {f : α → α} {p : α → Prop}
    {l : List α} (h1 : ∀ x ∈ l, p x)
    (h2 : ∀ x, l.find? q = some x → p (f x)) :
    ∀ y ∈ replaceFirst q f l, p y := by
  induction l with
  | nil => simp [replaceFirst]
  | cons x xs ih =>
      by_cases hx : q x = true
      · simp only [replaceFirst, if_pos hx]
        intro y hy
        rcases List.mem_cons.mp hy with rfl | hy
        · exact h2 x (by simp [List.find?_cons, hx])
        · exact h1 y (List.mem_cons_of_mem _ hy)
      · simp only [replaceFirst, if_neg hx]
        intro y hy
        rcases List.mem_cons.mp hy with rfl | hy
        · exact h1 y (List.mem_cons_self _ _)
        · refine ih (fun z hz => h1 z (List.mem_cons_of_mem _ hz))
            (fun z hz => h2 z ?_) y hy
          rw [List.find?_cons]
          simp only [hx, hz]

theorem jsOrElse_empty (a : String) : jsOrElse a "" = a := by
  unfold jsOrElse
  split <;> simp_all

theorem dedupFirst_idem_append (a : String) (l : List String) :
    dedupFirst (dedupFirst (l ++ [a]) ++ [a]) = dedupFirst (l ++ [a]) := by
  rw [dedupFirst_append_singleton_of_mem, dedupFirst_of_nodup nodup_dedupFirst]
  rw [dedupFirst_of_nodup nodup_dedupFirst]
  exact mem_dedupFirst.mpr (by simp)

theorem ownerNotAssignee_iff {s : LocalState} :
    ownerNotAssignee s = true ↔ ∀ r ∈ s.records, r.owner_uid ∉ r.assignees := by
  simp [ownerNotAssignee, List.all_eq_true]

theorem emptyOnlyPending_iff {s : LocalState} :
    emptyOnlyPending s = true ↔
      ∀ r ∈ s.records, r.assignees = [] → r.status = "pending" := by
  simp only [emptyOnlyPending, List.all_eq_true, decide_eq_true_eq]

theorem user_eta_password {g : User} (h : g.password = "guest") :
    ({ g with password := "guest" } : User) = g := by
  cases g
  simp_all

/-- C10: in the local backend, updateRecordStatus on an id matching no stored
record, with a current identity present, resolves to an absent result without
error and leaves the whole state, records and notifications included,
unchanged. -/
theorem C10_updateRecordStatus_unknown_id (s : LocalState) (u : User)
    (nid : String) (t : Nat) (id status : String)
    (hcu : s.currentUser = some u)
    (hfind : s.records.find? (fun r => r.id == id) = none) :
    updateRecordStatus s nid t id status = (.ok none, s) := by
  simp [updateRecordStatus, hcu, hfind]

/-- C10 witness: Alice is signed in and no record carries the id. -/
theorem C10_witness :
    updateRecordStatus sBase "n9" 5 "missing-id" "approved" = (.ok none, sBase) :=
  C10_updateRecordStatus_unknown_id sBase uAlice "n9" 5 "missing-id" "approved"
    (by rfl) (by rfl)

/-- C5 as stated is false: with no current identity, fetchMyRecords and
fetchAssignedRecords resolve successfully to the empty list instead of
failing with AuthRequired. -/
theorem C5_counterexample :
    fetchMyRecords sNoUser = .ok [] ∧ fetchAssignedRecords sNoUser = .ok [] := by
  constructor <;> rfl

/-- C5 amended: without a current identity the mutating Record Store calls
(savePoRecord, updateRecordStatus, addAssignee) fail with the AuthRequired
message and leave the state unchanged, while fetchMyRecords and
fetchAssignedRecords resolve to the empty list without failing. -/
theorem C5_amended_auth (s : LocalState) (hcu : s.currentUser = none)
    (rid : String) (t : Nat) (meta : Meta) (items attachments clauses : String)
    (fileBlob : Option String) (nid id status recordId email : String) :
    savePoRecord s rid t meta items attachments clauses fileBlob =
      (.error mustSignInMsg, s) ∧
    updateRecordStatus s nid t id status = (.error loginRequiredMsg, s) ∧
    addAssignee s nid t recordId email = (.error loginRequiredMsg, s) ∧
    fetchMyRecords s = .ok [] ∧
    fetchAssignedRecords s = .ok [] := by
  refine ⟨?_, ?_, ?_, ?_, ?_⟩ <;>
    simp [savePoRecord, updateRecordStatus, addAssignee, fetchMyRecords,
      fetchAssignedRecords, hcu]

/-- C5 amended witness at the concrete signed-out state. -/
theorem C5_amended_witness :
    savePoRecord sNoUser "r9" 7 metaSample "it" "at" "cl" none =
      (.error mustSignInMsg, sNoUser) ∧
    updateRecordStatus sNoUser "n9" 7 "r1" "approved" =
      (.error loginRequiredMsg, sNoUser) ∧
    addAssignee sNoUser "n9" 7 "r1" "bob@example.com" =
      (.error loginRequiredMsg, sNoUser) ∧
    fetchMyRecords sNoUser = .ok [] ∧
    fetchAssignedRecords sNoUser = .ok [] :=
  C5_amended_auth sNoUser (by rfl) "r9" 7 metaSample "it" "at" "cl" none
    "n9" "r1" "approved" "r1" "bob@example.com"

/-- C9: in the local backend signUp fails with the duplicate-email
ValidationError and changes nothing when the email is taken; otherwise it
creates the user, appends it to the persisted user set, sets it as the
current identity, and delivers the new identity to every registered
listener. -/
theorem C9_signUp_local (s : LocalState)
    (freshId email password displayName : String) :
    (s.users.any (fun u => u.email == email) = true →
      signUp s freshId email password displayName = (.error emailTakenMsg, s)) ∧
    (s.users.any (fun u => u.email == email) = false →
      signUp s freshId email password displayName =
        (.ok ⟨freshId, email, password, jsOrElse displayName email⟩,
         { s with
             users := s.users ++ [⟨freshId, email, password,
               jsOrElse displayName email⟩],
             currentUser := some ⟨freshId, email, password,
               jsOrElse displayName email⟩,
             events := s.events ++
               s.listeners.map (fun l => (l, some freshId)) }) ∧
      ∀ l ∈ s.listeners,
        (l, some freshId) ∈
          (signUp s freshId email password displayName).2.events) := by
  constructor
  · intro h
    simp [signUp, h]
  · intro h
    constructor
    · simp [signUp, h, fireListeners]
    · intro l hl
      simp only [signUp, h, Bool.false_eq_true, if_neg, not_false_iff,
        fireListeners, List.mem_append, List.mem_map]
      exact Or.inr ⟨l, hl, rfl⟩

/-- C9 witness: registering Carol at the concrete base state succeeds and
notifies both listeners; re-registering Alice's email fails. -/
theorem C9_witness :
    (signUp sBase "uid-carol" "alice@example.com" "pw-c" "Carol" =
      (.error emailTakenMsg, sBase)) ∧
    (signUp sBase "uid-carol" "carol@example.com" "pw-c" "Carol" =
      (.ok ⟨"uid-carol", "carol@example.com", "pw-c",
         jsOrElse "Carol" "carol@example.com"⟩,
       { sBase with
           users := sBase.users ++ [⟨"uid-carol", "carol@example.com", "pw-c",
             jsOrElse "Carol" "carol@example.com"⟩],
           currentUser := some ⟨"uid-carol", "carol@example.com", "pw-c",
             jsOrElse "Carol" "carol@example.com"⟩,
           events := sBase.events ++
             sBase.listeners.map (fun l => (l, some "uid-carol")) }) ∧
      ∀ l ∈ sBase.listeners,
        (l, some "uid-carol") ∈
          (signUp sBase "uid-carol" "carol@example.com" "pw-c" "Carol").2.events) :=
  ⟨(C9_signUp_local sBase "uid-carol" "alice@example.com" "pw-c" "Carol").1
      (by decide),
   (C9_signUp_local sBase "uid-carol" "carol@example.com" "pw-c" "Carol").2
      (by decide)⟩

/-- C7 as stated is false: Alice is signed in and the only notification is
addressed to Bob, yet markNotificationRead flips its read flag rather than
silently ignoring the call. -/
theorem C7_counterexample :
    (markNotificationRead sAliceBobNotif "n1").notifs =
      [{ notifToBob with read := true }] ∧
    markNotificationRead sAliceBobNotif "n1" ≠ sAliceBobNotif := by
  constructor
  · rfl
  · decide

/-- C7 amended: with a current identity, markNotificationRead flips the read
flag of the first notification carrying the id, with no check that it is
addressed to the caller, touches no other collection, and is a silent no-op
when no notification carries the id. -/
theorem C7_markNotificationRead_amended (s : LocalState) (u : User)
    (id : String) (hcu : s.currentUser = some u) :
    (s.notifs.find? (fun n => n.id == id) = none →
      markNotificationRead s id = s) ∧
    (∀ n, s.notifs.find? (fun n => n.id == id) = some n →
      (markNotificationRead s id).notifs.find? (fun m => m.id == id) =
        some { n with read := true } ∧
      (markNotificationRead s id).records = s.records ∧
      (markNotificationRead s id).users = s.users ∧
      (markNotificationRead s id).currentUser = s.currentUser) := by
  constructor
  · intro h
    simp only [markNotificationRead, hcu, replaceFirst_of_find?_none h]
    rw [← hcu]
  · intro n hn
    refine ⟨?_, by simp [markNotificationRead, hcu],
      by simp [markNotificationRead, hcu], by simp [markNotificationRead, hcu]⟩
    simp only [markNotificationRead, hcu]
    rw [find?_replaceFirst (fun m => m.id == id) markRead s.notifs
      (fun x => rfl), hn]
    rfl

/-- C7 amended witness: the notification addressed to Bob is flipped even
though Alice calls; a missing id is a no-op. -/
theorem C7_amended_witness :
    (markNotificationRead sAliceBobNotif "missing-id" = sAliceBobNotif) ∧
    ((markNotificationRead sAliceBobNotif "n1").notifs.find?
        (fun m => m.id == "n1") = some { notifToBob with read := true }) :=
  ⟨(C7_markNotificationRead_amended sAliceBobNotif uAlice "missing-id"
      (by rfl)).1 (by rfl),
   ((C7_markNotificationRead_amended sAliceBobNotif uAlice "n1"
      (by rfl)).2 notifToBob (by rfl)).1⟩

/-- C2: for an existing record, updateRecordStatus applies whatever status
value it is handed with no transition validation, refreshes the stored
record's updated_at, and appends exactly one review_feedback notification to
the owner, carrying the new status in its payload, exactly when the acting
identity differs from the owner; an owner-initiated update appends none.
The hypothesis on owner_uid mirrors the truthiness test of the source and
holds of every record savePoRecord writes for a user with a non-empty id. -/
theorem C2_updateRecordStatus (s : LocalState) (u : User) (rec : PoRecord)
    (nid : String) (t : Nat) (id status : String)
    (hcu : s.currentUser = some u)
    (hfind : s.records.find? (fun r => r.id == id) = some rec)
    (howner : rec.owner_uid ≠ "") :
    ∃ s',
      updateRecordStatus s nid t id status =
        (.ok (some (applyStatus status t rec)), s') ∧
      s'.records.find? (fun r => r.id == id) = some (applyStatus status t rec) ∧
      (applyStatus status t rec).status = status ∧
      (applyStatus status t rec).updated_at = t ∧
      (u.id ≠ rec.owner_uid →
        s'.notifs = s.notifs ++
          [⟨nid, rec.owner_uid, u.id, "review_feedback", id, t, false,
            some status⟩]) ∧
      (u.id = rec.owner_uid → s'.notifs = s.notifs) := by
  have hq : ∀ r : PoRecord, ((applyStatus status t r).id == id) = (r.id == id) :=
    fun r => rfl
  have hfr := find?_replaceFirst (fun r => r.id == id) (applyStatus status t)
    s.records hq
  rw [hfind] at hfr
  by_cases hne : rec.owner_uid = u.id
  · refine ⟨{ s with
      records := replaceFirst (fun r => r.id == id) (applyStatus status t) s.records },
      ?_, ?_, rfl, rfl, ?_, ?_⟩
    · simp only [updateRecordStatus, hcu, hfind]
      rw [if_neg]
      simp [hne]
    · exact hfr
    · intro h; exact absurd hne.symm h
    · intro _; rfl
  · refine ⟨{ s with
      records := replaceFirst (fun r => r.id == id) (applyStatus status t) s.records,
      notifs := s.notifs ++
        [⟨nid, rec.owner_uid, u.id, "review_feedback", id, t, false, some status⟩] },
      ?_, ?_, rfl, rfl, ?_, ?_⟩
    · simp only [updateRecordStatus, hcu, hfind]
      rw [if_pos]
      simp [howner, hne]
    · exact hfr
    · intro _; rfl
    · intro h; exact absurd h.symm hne

/-- C2 witness: Alice updates a record owned by Bob and one review_feedback
notification with the new status goes to Bob; Alice updating her own record
produces none. -/
theorem C2_witness :
    (∃ s',
      updateRecordStatus sAliceRecBob "n5" 3 "r2" "changes_requested" =
        (.ok (some (applyStatus "changes_requested" 3 recBob)), s') ∧
      s'.records.find? (fun r => r.id == "r2") =
        some (applyStatus "changes_requested" 3 recBob) ∧
      (applyStatus "changes_requested" 3 recBob).status = "changes_requested" ∧
      (applyStatus "changes_requested" 3 recBob).updated_at = 3 ∧
      (uAlice.id ≠ recBob.owner_uid →
        s'.notifs = sAliceRecBob.notifs ++
          [⟨"n5", recBob.owner_uid, uAlice.id, "review_feedback", "r2", 3,
            false, some "changes_requested"⟩]) ∧
      (uAlice.id = recBob.owner_uid → s'.notifs = sAliceRecBob.notifs)) ∧
    (∃ s',
      updateRecordStatus sAliceRecAlice "n5" 3 "r1" "finalized" =
        (.ok (some (applyStatus "finalized" 3 recAlice)), s') ∧
      s'.records.find? (fun r => r.id == "r1") =
        some (applyStatus "finalized" 3 recAlice) ∧
      (applyStatus "finalized" 3 recAlice).status = "finalized" ∧
      (applyStatus "finalized" 3 recAlice).updated_at = 3 ∧
      (uAlice.id ≠ recAlice.owner_uid →
        s'.notifs = sAliceRecAlice.notifs ++
          [⟨"n5", recAlice.owner_uid, uAlice.id, "review_feedback", "r1", 3,
            false, some "finalized"⟩]) ∧
      (uAlice.id = recAlice.owner_uid → s'.notifs = sAliceRecAlice.notifs)) :=
  ⟨C2_updateRecordStatus sAliceRecBob uAlice recBob "n5" 3 "r2"
      "changes_requested" (by rfl) (by rfl) (by decide),
   C2_updateRecordStatus sAliceRecAlice uAlice recAlice "n5" 3 "r1"
      "finalized" (by rfl) (by rfl) (by decide)⟩

/-- C8: saving a record stores the metadata payload wholesale, and
immediately re-fetching the owner's records returns the saved record with
that payload unchanged (JSON encode/decode is modelled as the identity). -/
theorem C8_roundTrip (s : LocalState) (u : User) (rid : String) (t : Nat)
    (meta : Meta) (items attachments clauses : String)
    (fileBlob : Option String) (hcu : s.currentUser = some u) :
    ∃ rec s' l,
      savePoRecord s rid t meta items attachments clauses fileBlob =
        (.ok rec, s') ∧
      fetchMyRecords s' = .ok l ∧ rec ∈ l ∧
      rec.meta_json =
        { meta := meta, items := items, attachments := attachments,
          clauses := clauses } := by
  refine ⟨mkRecord u rid t meta items attachments clauses fileBlob,
    { s with records := s.records ++
        [mkRecord u rid t meta items attachments clauses fileBlob] },
    ((s.records ++
        [mkRecord u rid t meta items attachments clauses fileBlob]).filter
      (fun r => r.owner_uid == u.id)).mergeSort
      (fun a b => decide (b.updated_at ≤ a.updated_at)),
    ?_, ?_, ?_, rfl⟩
  · simp only [savePoRecord, hcu]
  · simp only [fetchMyRecords, hcu]
  · rw [List.mem_mergeSort, List.mem_filter]
    refine ⟨by simp, ?_⟩
    simp [mkRecord, jsOrElse_empty]

/-- C8 witness at the concrete base state. -/
theorem C8_witness :
    ∃ rec s' l,
      savePoRecord sBase "r7" 4 metaSample "it" "at" "cl" none =
        (.ok rec, s') ∧
      fetchMyRecords s' = .ok l ∧ rec ∈ l ∧
      rec.meta_json =
        { meta := metaSample, items := "it", attachments := "at",
          clauses := "cl" } :=
  C8_roundTrip sBase uAlice "r7" 4 metaSample "it" "at" "cl" none (by rfl)

/-- C4: with a current identity the saved record has status pending, an
empty assignee set and the current identity as owner; without one,
savePoRecord fails with AuthRequired; right after the save the owner's
fetchMyRecords lists the record, and fetchAssignedRecords never lists it for
an identity outside its assignee set. -/
theorem C4_savePoRecord (s : LocalState) (u : User) (rid : String) (t : Nat)
    (meta : Meta) (items attachments clauses : String)
    (fileBlob : Option String) (hcu : s.currentUser = some u) :
    (∀ s₀ : LocalState, s₀.currentUser = none →
      savePoRecord s₀ rid t meta items attachments clauses fileBlob =
        (.error mustSignInMsg, s₀)) ∧
    ∃ rec s',
      savePoRecord s rid t meta items attachments clauses fileBlob =
        (.ok rec, s') ∧
      rec.status = "pending" ∧ rec.assignees = [] ∧ rec.owner_uid = u.id ∧
      (∃ l, fetchMyRecords s' = .ok l ∧ rec ∈ l) ∧
      (∀ v : User, v.id ∉ rec.assignees → ∀ l,
        fetchAssignedRecords { s' with currentUser := some v } = .ok l →
        rec ∉ l) := by
  constructor
  · intro s₀ h
    simp [savePoRecord, h]
  refine ⟨mkRecord u rid t meta items attachments clauses fileBlob,
    { s with records := s.records ++
        [mkRecord u rid t meta items attachments clauses fileBlob] },
    ?_, rfl, rfl, ?_, ?_, ?_⟩
  · simp only [savePoRecord, hcu]
  · simp [mkRecord, jsOrElse_empty]
  · refine ⟨((s.records ++
        [mkRecord u rid t meta items attachments clauses fileBlob]).filter
      (fun r => r.owner_uid == u.id)).mergeSort
      (fun a b => decide (b.updated_at ≤ a.updated_at)),
      by simp only [fetchMyRecords, hcu], ?_⟩
    rw [List.mem_mergeSort, List.mem_filter]
    refine ⟨by simp, ?_⟩
    simp [mkRecord, jsOrElse_empty]
  · intro v hv l hl hmem
    simp only [fetchAssignedRecords] at hl
    rw [Except.ok.injEq] at hl
    rw [← hl, List.mem_filter] at hmem
    have hcontains := hmem.2
    rw [Bool.and_eq_true] at hcontains
    have : v.id ∈ (mkRecord u rid t meta items attachments clauses fileBlob).assignees := by
      have := hcontains.1
      simpa [List.elem_iff] using this
    exact hv this

/-- C4 witness at the concrete base state (Alice signed in, Bob outside the
empty assignee set is checked through the universally quantified clause). -/
theorem C4_witness :
    (∀ s₀ : LocalState, s₀.currentUser = none →
      savePoRecord s₀ "r7" 4 metaSample "it" "at" "cl" none =
        (.error mustSignInMsg, s₀)) ∧
    ∃ rec s',
      savePoRecord sBase "r7" 4 metaSample "it" "at" "cl" none =
        (.ok rec, s') ∧
      rec.status = "pending" ∧ rec.assignees = [] ∧ rec.owner_uid = uAlice.id ∧
      (∃ l, fetchMyRecords s' = .ok l ∧ rec ∈ l) ∧
      (∀ v : User, v.id ∉ rec.assignees → ∀ l,
        fetchAssignedRecords { s' with currentUser := some v } = .ok l →
        rec ∉ l) :=
  C4_savePoRecord sBase uAlice "r7" 4 metaSample "it" "at" "cl" none (by rfl)

/-- C1: for any record and signed-in identity, addAssignee with an email
that resolves to a user forces status in_review whatever the prior status,
leaves exactly one entry for the resolved assignee in the assignee set, and
appends exactly one review_request notification to that assignee per call:
calling twice leaves the assignee set of the first call untouched while the
notification log grows by one entry per call. -/
theorem C1_addAssignee (s : LocalState) (u a : User) (rec : PoRecord)
    (nid1 nid2 : String) (t1 t2 : Nat) (recordId email : String)
    (hcu : s.currentUser = some u)
    (hemail : s.users.find? (fun us => us.email == email) = some a)
    (hrec : s.records.find? (fun r => r.id == recordId) = some rec) :
    ∃ s1 s2,
      addAssignee s nid1 t1 recordId email = (.ok (), s1) ∧
      s1.records.find? (fun r => r.id == recordId) =
        some (pushAssignee a.id t1 rec) ∧
      (pushAssignee a.id t1 rec).status = "in_review" ∧
      (pushAssignee a.id t1 rec).assignees.count a.id = 1 ∧
      s1.notifs = s.notifs ++
        [⟨nid1, a.id, u.id, "review_request", recordId, t1, false, none⟩] ∧
      addAssignee s1 nid2 t2 recordId email = (.ok (), s2) ∧
      s2.records.find? (fun r => r.id == recordId) =
        some (pushAssignee a.id t2 (pushAssignee a.id t1 rec)) ∧
      (pushAssignee a.id t2 (pushAssignee a.id t1 rec)).assignees =
        (pushAssignee a.id t1 rec).assignees ∧
      s2.notifs = s.notifs ++
        [⟨nid1, a.id, u.id, "review_request", recordId, t1, false, none⟩,
         ⟨nid2, a.id, u.id, "review_request", recordId, t2, false, none⟩] := by
  have hq1 : ∀ r : PoRecord,
      ((pushAssignee a.id t1 r).id == recordId) = (r.id == recordId) :=
    fun r => rfl
  have hq2 : ∀ r : PoRecord,
      ((pushAssignee a.id t2 r).id == recordId) = (r.id == recordId) :=
    fun r => rfl
  have hf1 : (replaceFirst (fun r => r.id == recordId) (pushAssignee a.id t1)
      s.records).find? (fun r => r.id == recordId) =
      some (pushAssignee a.id t1 rec) := by
    rw [find?_replaceFirst (fun r => r.id == recordId) (pushAssignee a.id t1)
      s.records hq1, hrec]
    rfl
  refine ⟨{ s with
      records := replaceFirst (fun r => r.id == recordId)
        (pushAssignee a.id t1) s.records,
      notifs := s.notifs ++
        [⟨nid1, a.id, u.id, "review_request", recordId, t1, false, none⟩] },
    { s with
      records := replaceFirst (fun r => r.id == recordId)
        (pushAssignee a.id t2)
        (replaceFirst (fun r => r.id == recordId)
          (pushAssignee a.id t1) s.records),
      notifs := (s.notifs ++
        [⟨nid1, a.id, u.id, "review_request", recordId, t1, false, none⟩]) ++
        [⟨nid2, a.id, u.id, "review_request", recordId, t2, false, none⟩] },
    ?_, hf1, rfl, ?_, rfl, ?_, ?_, ?_, ?_⟩
  · simp only [addAssignee, hcu, hemail, hrec]
  · exact count_dedupFirst_append_singleton a.id rec.assignees
  · simp only [addAssignee, hcu, hemail, hf1]
  · rw [find?_replaceFirst (fun r => r.id == recordId) (pushAssignee a.id t2)
      (replaceFirst (fun r => r.id == recordId) (pushAssignee a.id t1)
        s.records) hq2, hf1]
    rfl
  · show dedupFirst (dedupFirst (rec.assignees ++ [a.id]) ++ [a.id]) =
      dedupFirst (rec.assignees ++ [a.id])
    exact dedupFirst_idem_append a.id rec.assignees
  · simp

/-- C1 witness: Alice assigns Bob twice on her own record. -/
theorem C1_witness :
    ∃ s1 s2,
      addAssignee sAliceRecAlice "n1" 1 "r1" "bob@example.com" =
        (.ok (), s1) ∧
      s1.records.find? (fun r => r.id == "r1") =
        some (pushAssignee uBob.id 1 recAlice) ∧
      (pushAssignee uBob.id 1 recAlice).status = "in_review" ∧
      (pushAssignee uBob.id 1 recAlice).assignees.count uBob.id = 1 ∧
      s1.notifs = sAliceRecAlice.notifs ++
        [⟨"n1", uBob.id, uAlice.id, "review_request", "r1", 1, false, none⟩] ∧
      addAssignee s1 "n2" 2 "r1" "bob@example.com" = (.ok (), s2) ∧
      s2.records.find? (fun r => r.id == "r1") =
        some (pushAssignee uBob.id 2 (pushAssignee uBob.id 1 recAlice)) ∧
      (pushAssignee uBob.id 2 (pushAssignee uBob.id 1 recAlice)).assignees =
        (pushAssignee uBob.id 1 recAlice).assignees ∧
      s2.notifs = sAliceRecAlice.notifs ++
        [⟨"n1", uBob.id, uAlice.id, "review_request", "r1", 1, false, none⟩,
         ⟨"n2", uBob.id, uAlice.id, "review_request", "r1", 2, false, none⟩] :=
  C1_addAssignee sAliceRecAlice uAlice uBob recAlice "n1" "n2" 1 2 "r1"
    "bob@example.com" (by rfl) (by rfl) (by rfl)

theorem signIn_guest_missing
    (remote : LocalState → String → String → Except String User × LocalState)
    (sa : Bool) (s : LocalState) (fid : String)
    (hg : s.users.find? (fun u => u.email == "guest") = none) :
    signIn remote sa s fid "guest" "guest" =
      (.ok ⟨fid, "guest", "guest", "Guest"⟩,
       fireListeners { s with
          users := s.users ++ [⟨fid, "guest", "guest", "Guest"⟩],
          currentUser := some ⟨fid, "guest", "guest", "Guest"⟩ }
        (some fid)) := by
  simp only [signIn, hg]
  rfl

theorem signIn_guest_found
    (remote : LocalState → String → String → Except String User × LocalState)
    (sa : Bool) (s : LocalState) (fid : String) (gu : User)
    (hg : s.users.find? (fun u => u.email == "guest") = some gu) :
    signIn remote sa s fid "guest" "guest" =
      (.ok (normalizeGuestPassword gu),
       fireListeners { s with
          users := replaceFirst (fun u => u.email == "guest")
            normalizeGuestPassword s.users,
          currentUser := some (normalizeGuestPassword gu) }
        (some (normalizeGuestPassword gu).id)) := by
  simp only [signIn, hg]
  rfl

theorem signIn_guest_step
    (remote : LocalState → String → String → Except String User × LocalState)
    (sa : Bool) (s : LocalState) (fid : String) (g : User)
    (hg : s.users.find? (fun u => u.email == "guest") = some g)
    (hpw : g.password = "guest") :
    ∃ s2, signIn remote sa s fid "guest" "guest" = (.ok g, s2) ∧
      s2.users.find? (fun u => u.email == "guest") = some g ∧
      s2.currentUser = some g := by
  have hng : normalizeGuestPassword g = g := user_eta_password hpw
  refine ⟨fireListeners { s with
      users := replaceFirst (fun u => u.email == "guest")
        normalizeGuestPassword s.users,
      currentUser := some g } (some g.id), ?_, ?_, rfl⟩
  · rw [signIn_guest_found remote sa s fid g hg, hng]
  · show (replaceFirst (fun u => u.email == "guest")
        normalizeGuestPassword s.users).find? (fun u => u.email == "guest") =
      some g
    rw [find?_replaceFirst (fun u => u.email == "guest")
      normalizeGuestPassword s.users (fun x => rfl), hg]
    simp [hng]

/-- C6: guest/guest sign-in is resolved against the local user set before
any backend dispatch, so its result does not depend on the active backend or
on the remote service at all; it creates the guest identity on first use,
afterwards always resolves to that same identity, normalizes the stored
guest password back to the reserved value, and signs the guest in. -/
theorem C6_guest_signIn
    (remote1 remote2 : LocalState → String → String → Except String User × LocalState)
    (sa1 sa2 : Bool) (s : LocalState) (fid1 fid2 : String) :
    signIn remote1 sa1 s fid1 "guest" "guest" =
      signIn remote2 sa2 s fid1 "guest" "guest" ∧
    ∃ g s1,
      signIn remote1 sa1 s fid1 "guest" "guest" = (.ok g, s1) ∧
      g.email = "guest" ∧ g.password = "guest" ∧
      (s.users.find? (fun u => u.email == "guest") = none → g.id = fid1) ∧
      (∀ gu, s.users.find? (fun u => u.email == "guest") = some gu →
        g.id = gu.id) ∧
      s1.users.find? (fun u => u.email == "guest") = some g ∧
      s1.currentUser = some g ∧
      ∃ s2, signIn remote2 sa2 s1 fid2 "guest" "guest" = (.ok g, s2) ∧
        s2.users.find? (fun u => u.email == "guest") = some g ∧
        s2.currentUser = some g := by
  cases h : s.users.find? (fun u => u.email == "guest") with
  | none =>
      have hfind : (s.users ++
          [(⟨fid1, "guest", "guest", "Guest"⟩ : User)]).find?
          (fun u => u.email == "guest") =
          some ⟨fid1, "guest", "guest", "Guest"⟩ := by
        rw [List.find?_append, h]
        rfl
      constructor
      · rw [signIn_guest_missing remote1 sa1 s fid1 h,
          signIn_guest_missing remote2 sa2 s fid1 h]
      · refine ⟨⟨fid1, "guest", "guest", "Guest"⟩,
          fireListeners { s with
            users := s.users ++ [⟨fid1, "guest", "guest", "Guest"⟩],
            currentUser := some ⟨fid1, "guest", "guest", "Guest"⟩ }
            (some fid1),
          signIn_guest_missing remote1 sa1 s fid1 h, rfl, rfl,
          fun _ => rfl, ?_, hfind, rfl, ?_⟩
        · intro gu hgu
          exact Option.noConfusion hgu
        · exact signIn_guest_step remote2 sa2 _ fid2 _ hfind rfl
  | some gu =>
      have hfind : (replaceFirst (fun u => u.email == "guest")
          normalizeGuestPassword s.users).find? (fun u => u.email == "guest") =
          some (normalizeGuestPassword gu) := by
        rw [find?_replaceFirst (fun u => u.email == "guest")
          normalizeGuestPassword s.users (fun x => rfl), h]
        rfl
      have hge : gu.email = "guest" := by
        have := List.find?_some h
        simpa using this
      constructor
      · rw [signIn_guest_found remote1 sa1 s fid1 gu h,
          signIn_guest_found remote2 sa2 s fid1 gu h]
      · refine ⟨normalizeGuestPassword gu,
          fireListeners { s with
            users := replaceFirst (fun u => u.email == "guest")
              normalizeGuestPassword s.users,
            currentUser := some (normalizeGuestPassword gu) }
            (some (normalizeGuestPassword gu).id),
          signIn_guest_found remote1 sa1 s fid1 gu h, hge, rfl, ?_, ?_,
          hfind, rfl, ?_⟩
        · intro hnone
          exact Option.noConfusion hnone
        · intro gu' hgu'
          injection hgu' with e
          rw [e]
          rfl
        · exact signIn_guest_step remote2 sa2 _ fid2 _ hfind rfl

/-- C6 has no hypotheses of its own, but this instantiates it at a concrete
state without a guest user, two different stub backends and both backend
flags, checking the created identity concretely. -/
theorem C6_witness :
    signIn remoteStub true sBase "uid-guest" "guest" "guest" =
      signIn (fun s _ _ => (.error "other", s)) false sBase "uid-guest"
        "guest" "guest" ∧
    ∃ g s1,
      signIn remoteStub true sBase "uid-guest" "guest" "guest" =
        (.ok g, s1) ∧
      g.email = "guest" ∧ g.password = "guest" ∧
      (sBase.users.find? (fun u => u.email == "guest") = none →
        g.id = "uid-guest") ∧
      (∀ gu, sBase.users.find? (fun u => u.email == "guest") = some gu →
        g.id = gu.id) ∧
      s1.users.find? (fun u => u.email == "guest") = some g ∧
      s1.currentUser = some g ∧
      ∃ s2, signIn (fun s _ _ => (.error "other", s)) false s1 "uid-guest2"
          "guest" "guest" = (.ok g, s2) ∧
        s2.users.find? (fun u => u.email == "guest") = some g ∧
        s2.currentUser = some g :=
  C6_guest_signIn remoteStub (fun s _ _ => (.error "other", s)) true false
    sBase "uid-guest" "uid-guest2"

theorem applyAction_save_records (s : LocalState) (actor : User)
    (rid : String) (t : Nat) (meta : Meta)
    (items attachments clauses : String) (fb : Option String) :
    (applyAction s (.save actor rid t meta items attachments clauses fb)).records =
      s.records ++ [mkRecord actor rid t meta items attachments clauses fb] :=
  rfl

theorem applyAction_update_records_none (s : LocalState) (actor : User)
    (nid : String) (t : Nat) (id status : String)
    (hfe : s.records.find? (fun r => r.id == id) = none) :
    (applyAction s (.update actor nid t id status)).records = s.records := by
  simp only [applyAction, updateRecordStatus, hfe]

theorem applyAction_update_records_some (s : LocalState) (actor : User)
    (nid : String) (t : Nat) (id status : String) (rec : PoRecord)
    (hfe : s.records.find? (fun r => r.id == id) = some rec) :
    (applyAction s (.update actor nid t id status)).records =
      replaceFirst (fun r => r.id == id) (applyStatus status t) s.records := by
  simp only [applyAction, updateRecordStatus, hfe]
  by_cases hc : (rec.owner_uid != "" && rec.owner_uid != actor.id) = true
  · rw [if_pos hc]
  · rw [if_neg hc]

theorem applyAction_assign_records_noUser (s : LocalState) (actor : User)
    (nid : String) (t : Nat) (recordId email : String)
    (ha : s.users.find? (fun us => us.email == email) = none) :
    (applyAction s (.assign actor nid t recordId email)).records = s.records := by
  simp only [applyAction, addAssignee, ha]

theorem applyAction_assign_records_noRec (s : LocalState) (actor : User)
    (nid : String) (t : Nat) (recordId email : String) (a : User)
    (ha : s.users.find? (fun us => us.email == email) = some a)
    (hfr : s.records.find? (fun r => r.id == recordId) = none) :
    (applyAction s (.assign actor nid t recordId email)).records = s.records := by
  simp only [applyAction, addAssignee, ha, hfr]

theorem applyAction_assign_records_found (s : LocalState) (actor : User)
    (nid : String) (t : Nat) (recordId email : String) (a : User)
    (rec : PoRecord)
    (ha : s.users.find? (fun us => us.email == email) = some a)
    (hfr : s.records.find? (fun r => r.id == recordId) = some rec) :
    (applyAction s (.assign actor nid t recordId email)).records =
      replaceFirst (fun r => r.id == recordId) (pushAssignee a.id t)
        s.records := by
  simp only [applyAction, addAssignee, ha, hfr]

theorem applyAction_preserves (s : LocalState) (a : ApiCall)
    (h1 : ownerNotAssignee s = true) (h2 : emptyOnlyPending s = true)
    (hg : actionGuard s a = true) :
    ownerNotAssignee (applyAction s a) = true ∧
      emptyOnlyPending (applyAction s a) = true := by
  rw [ownerNotAssignee_iff] at h1
  rw [emptyOnlyPending_iff] at h2
  rw [ownerNotAssignee_iff, emptyOnlyPending_iff]
  cases a with
  | save actor rid t meta items attachments clauses fb =>
      rw [applyAction_save_records]
      constructor
      · intro r hr
        rcases List.mem_append.mp hr with hr | hr
        · exact h1 r hr
        · rw [List.mem_singleton] at hr
          subst hr
          simp [mkRecord]
      · intro r hr hemp
        rcases List.mem_append.mp hr with hr | hr
        · exact h2 r hr hemp
        · rw [List.mem_singleton] at hr
          subst hr
          rfl
  | update actor nid t id status =>
      cases hfe : s.records.find? (fun r => r.id == id) with
      | none =>
          rw [applyAction_update_records_none s actor nid t id status hfe]
          exact ⟨h1, h2⟩
      | some rec =>
          rw [applyAction_update_records_some s actor nid t id status rec hfe]
          constructor
          · refine forall_mem_replaceFirst h1 ?_
            intro x hx
            exact h1 x (List.mem_of_find?_eq_some hx)
          · refine forall_mem_replaceFirst h2 ?_
            intro x hx
            rw [hfe] at hx
            injection hx with e
            simp only [applyStatus]
            intro hemp
            simp only [actionGuard, updateGuard, hfe] at hg
            rw [← e] at hemp
            simp only [hemp, List.isEmpty_nil, Bool.not_true,
              Bool.false_or] at hg
            simpa using hg
  | assign actor nid t recordId email =>
      cases ha : s.users.find? (fun us => us.email == email) with
      | none =>
          rw [applyAction_assign_records_noUser s actor nid t recordId email ha]
          exact ⟨h1, h2⟩
      | some a =>
          cases hfr : s.records.find? (fun r => r.id == recordId) with
          | none =>
              rw [applyAction_assign_records_noRec s actor nid t recordId
                email a ha hfr]
              exact ⟨h1, h2⟩
          | some rec =>
              rw [applyAction_assign_records_found s actor nid t recordId
                email a rec ha hfr]
              constructor
              · refine forall_mem_replaceFirst h1 ?_
                intro x hx
                rw [hfr] at hx
                injection hx with e
                simp only [pushAssignee]
                intro hmem
                rw [mem_dedupFirst] at hmem
                rcases List.mem_append.mp hmem with hm | hm
                · exact h1 x (e ▸ List.mem_of_find?_eq_some hfr) hm
                · rw [List.mem_singleton] at hm
                  simp only [actionGuard, assignGuard, ha, hfr] at hg
                  rw [bne_iff_ne] at hg
                  rw [e] at hg
                  exact hg hm.symm
              · refine forall_mem_replaceFirst h2 ?_
                intro x hx
                simp only [pushAssignee]
                intro hemp
                exfalso
                have hin : a.id ∈ dedupFirst (x.assignees ++ [a.id]) :=
                  mem_dedupFirst.mpr (by simp)
                rw [hemp] at hin
                exact List.not_mem_nil _ hin

/-- C3 as stated is false: starting from a state that satisfies both parts
of the invariant, the owner can add herself as an assignee through
addAssignee with her own email, and updateRecordStatus can drive a record
with an empty assignee set out of pending. -/
theorem C3_counterexample :
    ownerNotAssignee sBase = true ∧ emptyOnlyPending sBase = true ∧
    ownerNotAssignee (runActions sBase selfAssignTrace) = false ∧
    emptyOnlyPending (runActions sBase emptyApproveTrace) = false := by
  refine ⟨rfl, rfl, ?_, ?_⟩ <;> rfl

/-- C3 amended: the spec invariant holds of every reachable state provided
no addAssignee call resolves its email to the owner of the targeted record,
and no updateRecordStatus call moves a record whose assignee set is empty to
a status other than pending; the source enforces neither side condition, as
the counterexample shows. -/
theorem C3_amended_invariant (s : LocalState) (acts : List ApiCall)
    (h1 : ownerNotAssignee s = true) (h2 : emptyOnlyPending s = true)
    (hg : guardedTrace s acts = true) :
    ownerNotAssignee (runActions s acts) = true ∧
      emptyOnlyPending (runActions s acts) = true := by
  induction acts generalizing s with
  | nil => exact ⟨h1, h2⟩
  | cons a acts ih =>
      simp only [guardedTrace, Bool.and_eq_true] at hg
      have hp := applyAction_preserves s a h1 h2 hg.1
      exact ih (applyAction s a) hp.1 hp.2 hg.2

/-- C3 amended witness: save by Alice, assign Bob, status update by Bob is a
guarded trace and the final state satisfies both parts of the invariant. -/
theorem C3_amended_witness :
    ownerNotAssignee (runActions sBase reviewTrace) = true ∧
      emptyOnlyPending (runActions sBase reviewTrace) = true :=
  C3_amended_invariant sBase reviewTrace (by rfl) (by rfl) (by rfl)
